import Mathlib

/-!
Shallow embedding of the Expense-Manager chat application (src/app.py) and
proofs about its conversation state machine, ledger-store access functions
and string normalisation, checked against the design specification.

The state machine lives in the chat-turn handler (src/app.py lines 219-272);
the ledger-store wrappers are the functions named here after their source
counterparts, and the Classifier is modelled as an oracle supplying the parse
outcome of its raw reply.
-/

namespace ExpenseManager

/-- A cell of the spreadsheet-backed DataFrame: a string, a number, or
missing (NaN, as produced by an empty string-dtype column). -/
inductive Cell where
  | str (s : String)
  | num (q : Rat)
  | na
deriving DecidableEq

/-- A pandas DataFrame, modelled as a list of named columns of cells. -/
structure DF where
  cols : List (String × List Cell)
deriving DecidableEq

/-- The column names of a frame, in order. -/
def DF.colNames (df : DF) : List String := df.cols.map Prod.fst

/-- The number of rows of a frame (pandas: the common length of all columns;
we read it off the first column, 0 for a column-free frame). -/
def DF.nrows (df : DF) : Nat := ((df.cols.head?.map (fun c => c.2.length)).getD 0)

/-- The required spreadsheet columns (src/app.py line 130). -/
def required_cols : List String := ["Date", "Item", "Amount", "Category", "Notes"]

/-- Effect of the pandas statement that assigns an empty string-dtype Series to a
missing column: a new all-missing column appended to the frame. -/
def DF.addEmptyCol (df : DF) (name : String) : DF :=
  ⟨df.cols ++ [(name, List.replicate df.nrows Cell.na)]⟩

/-- One iteration of the for-loop of src/app.py lines 131-133: add the column
if it is absent, otherwise leave the frame unchanged. -/
def ensureCol (d : DF) (c : String) : DF :=
  if c ∈ d.colNames then d else d.addEmptyCol c

/-- Model of the function named here (src/app.py lines 125-137): read the sheet;
on a read failure (modelled by `backend = none`, the connection or read raising)
the exception is caught and an empty frame with the five required columns is
returned; on success any missing required column is added as an empty column. -/
def get_data (backend : Option DF) : DF :=
  match backend with
  | none => ⟨required_cols.map (fun n => (n, []))⟩
  | some df => required_cols.foldl ensureCol df

/-- An expense row as written to the sheet by the function modelled below:
the five required columns of one record. -/
structure ExpenseRecord where
  date : String
  item : String
  amount : Rat
  category : String
  notes : String
deriving DecidableEq

/-- Model of the function named here (src/app.py lines 139-155), at the level of
row content: read all rows, add the new one, write the whole frame back.
`ro = false` models the read inside the ledger-read function failing (that
failure is swallowed there and yields an empty frame, so the rewrite then drops
the old rows); `wo = false` models the sheet update raising, which is caught:
`false` is returned and the sheet is unchanged.  Returns the success flag and
the resulting sheet content.  The source converts the amount with `float`;
amounts are modelled as rationals, on which that conversion is the identity. -/
def save_expense (ledger : List ExpenseRecord) (ro wo : Bool)
    (date item : String) (amount : Rat) (category notes : String) :
    Bool × List ExpenseRecord :=
  let existing_data := if ro then ledger else []
  let new_entry : ExpenseRecord := ⟨date, item, amount, category, notes⟩
  let updated_df := existing_data ++ [new_entry]
  if wo then (true, updated_df) else (false, ledger)

/-- The JSON object decoded from the Classifier reply, as a partial record:
`none` in a field models a missing key of the Python dict (accessed in the
source with `.get(...)` or, fallibly, with subscripting). -/
structure AIResult where
  intent : Option String
  date : Option String
  item : Option String
  amount : Option Rat
  category : Option String
  notes : Option String
  response_text : Option String
deriving DecidableEq

/-- Model of the Classifier call (src/app.py lines 160-196): the model reply is
cleaned and decoded; `parsed = some r` models the JSON decode succeeding on the
cleaned text `raw`, `parsed = none` models it raising, in which case the
fallback ERROR verdict is returned instead of propagating the exception. -/
def analyze_intent_and_process (parsed : Option AIResult) (raw : String) : AIResult :=
  match parsed with
  | some r => r
  | none => ⟨some "ERROR", none, none, none, none, none, some ("Error: " ++ raw)⟩

/-- Python whitespace as stripped by `str.strip()` with no argument: the ASCII
space characters together with the common Unicode space separators. -/
def isPySpace (c : Char) : Bool :=
  c.toNat == 32 || (9 ≤ c.toNat && c.toNat ≤ 13) || (28 ≤ c.toNat && c.toNat ≤ 31)
    || c.toNat == 0x85 || c.toNat == 0xa0 || c.toNat == 0x1680
    || (0x2000 ≤ c.toNat && c.toNat ≤ 0x200a)
    || c.toNat == 0x2028 || c.toNat == 0x2029 || c.toNat == 0x202f
    || c.toNat == 0x205f || c.toNat == 0x3000

/-- Model of Python `str.strip()`: drop leading and trailing whitespace. -/
def pyStrip (s : String) : String :=
  ⟨((s.toList.dropWhile isPySpace).reverse.dropWhile isPySpace).reverse⟩

/-- Worker for the model of Python `str.title()`: a cased character following a
non-cased one is uppercased, a cased character following a cased one is
lowercased, and other characters pass through (letters stand in for the cased
characters, exact on ASCII text). -/
def titleChars : List Char → Bool → List Char
  | [], _ => []
  | c :: cs, prevCased =>
      if c.isAlpha then (if prevCased then c.toLower else c.toUpper) :: titleChars cs true
      else c :: titleChars cs false

/-- Model of Python `str.title()`. -/
def pyTitle (s : String) : String := ⟨titleChars s.toList false⟩

/-- Everything one chat turn leaves behind: the pending-clarification slot and
sheet content after the turn, the records handed to the sheet-append function
during the turn (in order), the assistant message produced (`none` when the
turn raised before producing one, or surfaced a Python `None`), whether an
uncaught Python exception escaped the turn, and whether the Classifier was
invoked. -/
structure TurnOutput where
  pending : Option AIResult
  ledger : List ExpenseRecord
  appends : List ExpenseRecord
  response : Option String
  raised : Option String
  classifierCalled : Bool
deriving DecidableEq

/-- Model of the Pending Category Logic block (src/app.py lines 225-238), run
when the pending slot is occupied: the raw message, stripped and title-cased,
is taken as the category, combined with the held partial record and saved.  On
save success the pending slot is cleared; on save failure it is left in place.
A held record missing one of the four accessed keys makes the dict subscripting
raise KeyError before any effect. -/
def resolvePending (prompt : String) (p : AIResult)
    (ledger : List ExpenseRecord) (ro wo : Bool) : TurnOutput :=
  let category_input := pyTitle (pyStrip prompt)
  match p.date, p.item, p.amount, p.notes with
  | some date, some item, some amount, some notes =>
      let res := save_expense ledger ro wo date item amount category_input notes
      if res.1 then
        ⟨none, res.2, [⟨date, item, amount, category_input, notes⟩],
         some ("Got it! Categorized as **" ++ category_input ++ "** and saved."),
         none, false⟩
      else
        ⟨some p, res.2, [⟨date, item, amount, category_input, notes⟩],
         some "Something went wrong saving the data.", none, false⟩
  | _, _, _, _ => ⟨some p, ledger, [], none, some "KeyError", false⟩

/-- Model of the verdict dispatch (src/app.py lines 245-272), run when the
pending slot is empty.  Uses dict `.get` for intent and category (no raise),
and fallible subscripting for the fields of a LOG_EXPENSE verdict: in the
uncertain-category branch the pending slot is assigned before the clarifying
message reads the amount and item keys, so a record missing those keys leaves
the slot occupied and then raises; in the save branch a missing key raises
before any effect. -/
def handleVerdict (ai_result : AIResult)
    (ledger : List ExpenseRecord) (ro wo : Bool) : TurnOutput :=
  if ai_result.intent = some "QUERY" then
    ⟨none, ledger, [], ai_result.response_text, none, true⟩
  else if ai_result.intent = some "LOG_EXPENSE" then
    if ai_result.category = some "UNCERTAIN" then
      match ai_result.amount, ai_result.item with
      | some amount, some item =>
          ⟨some ai_result, ledger, [],
           some ("I noticed you spent **₹" ++ toString amount ++ "** on **" ++ item
             ++ "**, but I\x27m not sure about the category. Which one is it?"),
           none, true⟩
      | _, _ => ⟨some ai_result, ledger, [], none, some "KeyError", true⟩
    else
      match ai_result.date, ai_result.item, ai_result.amount,
          ai_result.category, ai_result.notes with
      | some date, some item, some amount, some category, some notes =>
          let res := save_expense ledger ro wo date item amount category notes
          ⟨none, res.2, [⟨date, item, amount, category, notes⟩],
           some (if res.1 then
               "✅ Saved: **₹" ++ toString amount ++ "** for **" ++ item
                 ++ "** (" ++ category ++ ")."
             else "Failed to save."),
           none, true⟩
      | _, _, _, _, _ => ⟨none, ledger, [], none, some "KeyError", true⟩
  else
    ⟨none, ledger, [], some "I\x27m sorry, I didn\x27t understand that. Please try again.",
     none, true⟩

/-- Model of one chat turn (src/app.py lines 219-272).  `pending` is the
session pending-expense slot: the source guards on Python truthiness, and the
slot only ever holds a non-empty dict, so the guard agrees with `Option`
matching.  `cp` and `raw` supply the Classifier oracle for this turn: the parse
outcome and cleaned text of its reply (unused when a clarification is pending,
since the source then never calls the Classifier). -/
def processTurn (prompt : String) (pending : Option AIResult)
    (ledger : List ExpenseRecord) (ro wo : Bool)
    (cp : Option AIResult) (raw : String) : TurnOutput :=
  match pending with
  | some p => resolvePending prompt p ledger ro wo
  | none => handleVerdict (analyze_intent_and_process cp raw) ledger ro wo

/-- The cells of a named column of a frame (empty when the column is absent). -/
def DF.column (df : DF) (name : String) : List Cell :=
  ((df.cols.find? (fun c => c.1 == name)).map Prod.snd).getD []

/-- The string content of a cell, as the sheet serialization renders it. -/
def cellStr : Cell → String
  | .str s => s
  | .num q => toString q
  | .na => ""

/-- The numeric content of a cell (0 when it is not numeric). -/
def cellNum : Cell → Rat
  | .num q => q
  | _ => 0

/-- Rebuild expense records from the five column cell lists, row by row. -/
def rowsOf : List Cell → List Cell → List Cell → List Cell → List Cell →
    List ExpenseRecord
  | d :: ds, i :: ils, q :: qs, c :: cs, n :: ns =>
      ⟨cellStr d, cellStr i, cellNum q, cellStr c, cellStr n⟩ :: rowsOf ds ils qs cs ns
  | _, _, _, _, _ => []

/-- Read the expense records out of a frame via the five required columns. -/
def readRecords (df : DF) : List ExpenseRecord :=
  rowsOf (df.column "Date") (df.column "Item") (df.column "Amount")
    (df.column "Category") (df.column "Notes")

/-- The frame the sheet holds after writing a list of expense rows: one column
per required field, in sheet order. -/
def ledgerDF (l : List ExpenseRecord) : DF :=
  ⟨[("Date", l.map (fun r => Cell.str r.date)),
    ("Item", l.map (fun r => Cell.str r.item)),
    ("Amount", l.map (fun r => Cell.num r.amount)),
    ("Category", l.map (fun r => Cell.str r.category)),
    ("Notes", l.map (fun r => Cell.str r.notes))]⟩

/-- One append of a sequence: run the sheet-append function with both the read
and the write succeeding, collecting the returned success flag. -/
def appendStep (acc : List Bool × List ExpenseRecord) (r : ExpenseRecord) :
    List Bool × List ExpenseRecord :=
  let res := save_expense acc.2 true true r.date r.item r.amount r.category r.notes
  (acc.1 ++ [res.1], res.2)

/-- Append a sequence of records to a starting ledger, one sheet append each,
returning the success flags and the final sheet content. -/
def appendAll (start recs : List ExpenseRecord) : List Bool × List ExpenseRecord :=
  recs.foldl appendStep ([], start)

/-- A fully-populated Expense verdict with a resolvable category. -/
def sampleExpense : AIResult :=
  ⟨some "LOG_EXPENSE", some "2025-01-15", some "auto", some 200, some "Travel", some "", none⟩

/-- A fully-populated Expense verdict carrying the sentinel category, as also
held in the pending slot after an uncertain-category turn. -/
def sampleUncertain : AIResult :=
  ⟨some "LOG_EXPENSE", some "2025-01-15", some "Rahul", some 500, some "UNCERTAIN", some "", none⟩

/-- An Expense verdict with a negative extracted amount. -/
def negativeExpense : AIResult :=
  ⟨some "LOG_EXPENSE", some "2025-01-15", some "refund", some (-5), some "Food", some "", none⟩

/-- An Expense verdict whose date key is missing. -/
def missingDateExpense : AIResult :=
  ⟨some "LOG_EXPENSE", none, some "tea", some 10, some "Food", some "", none⟩

/-- A Query verdict. -/
def sampleQuery : AIResult :=
  ⟨some "QUERY", none, none, none, none, none, some "You spent 700 on Food."⟩

theorem colNames_addEmptyCol (d : DF) (c : String) :
    (d.addEmptyCol c).colNames = d.colNames ++ [c] := by
  simp [DF.addEmptyCol, DF.colNames]

theorem nrows_addEmptyCol (d : DF) (c : String) :
    (d.addEmptyCol c).nrows = d.nrows := by
  rcases d with ⟨cols⟩
  cases cols <;> simp [DF.addEmptyCol, DF.nrows]

theorem mem_colNames_ensureCol (d : DF) (c x : String) (h : x ∈ d.colNames) :
    x ∈ (ensureCol d c).colNames := by
  unfold ensureCol
  split
  · exact h
  · rw [colNames_addEmptyCol]; exact List.mem_append_left _ h

theorem self_mem_colNames_ensureCol (d : DF) (c : String) :
    c ∈ (ensureCol d c).colNames := by
  unfold ensureCol
  split
  · assumption
  · rw [colNames_addEmptyCol]; exact List.mem_append_right _ (by simp)

theorem nrows_ensureCol (d : DF) (c : String) : (ensureCol d c).nrows = d.nrows := by
  unfold ensureCol
  split
  · rfl
  · exact nrows_addEmptyCol d c

theorem mem_colNames_foldl (l : List String) (d : DF) (x : String) (h : x ∈ d.colNames) :
    x ∈ (l.foldl ensureCol d).colNames := by
  induction l generalizing d with
  | nil => exact h
  | cons c cs ih => exact ih _ (mem_colNames_ensureCol _ _ _ h)

theorem foldl_ensureCol_mem (l : List String) (d : DF) (c : String) (h : c ∈ l) :
    c ∈ (l.foldl ensureCol d).colNames := by
  induction l generalizing d with
  | nil => cases h
  | cons a cs ih =>
      rcases List.mem_cons.mp h with rfl | h2
      · exact mem_colNames_foldl cs _ _ (self_mem_colNames_ensureCol d c)
      · exact ih _ h2

theorem foldl_ensureCol_id (l : List String) (d : DF) (h : ∀ c ∈ l, c ∈ d.colNames) :
    l.foldl ensureCol d = d := by
  induction l with
  | nil => rfl
  | cons a cs ih =>
      have ha : ensureCol d a = d := by
        unfold ensureCol; rw [if_pos (h a (by simp))]
      simp only [List.foldl_cons, ha]
      exact ih (fun c hc => h c (by simp [hc]))

theorem foldl_ensureCol_extra (l : List String) (d : DF) :
    ∃ extra, (l.foldl ensureCol d).cols = d.cols ++ extra
      ∧ ∀ p ∈ extra, p.1 ∈ l ∧ p.1 ∉ d.colNames
          ∧ p.2 = List.replicate d.nrows Cell.na := by
  induction l generalizing d with
  | nil => exact ⟨[], by simp⟩
  | cons a cs ih =>
      by_cases hmem : a ∈ d.colNames
      · have ha : ensureCol d a = d := by unfold ensureCol; rw [if_pos hmem]
        obtain ⟨extra, he, hp⟩ := ih d
        exact ⟨extra, by simpa [ha] using he, fun p hpm =>
          ⟨List.mem_cons_of_mem _ (hp p hpm).1, (hp p hpm).2.1, (hp p hpm).2.2⟩⟩
      · have ha : ensureCol d a = d.addEmptyCol a := by unfold ensureCol; rw [if_neg hmem]
        obtain ⟨extra, he, hp⟩ := ih (d.addEmptyCol a)
        refine ⟨(a, List.replicate d.nrows Cell.na) :: extra, ?_, ?_⟩
        · rw [List.foldl_cons, ha, he]
          simp [DF.addEmptyCol]
        · intro p hpm
          rcases List.mem_cons.mp hpm with rfl | h2
          · exact ⟨by simp, hmem, rfl⟩
          · obtain ⟨h1, h2', h3⟩ := hp p h2
            refine ⟨List.mem_cons_of_mem _ h1, ?_, ?_⟩
            · intro hcon
              exact h2' (by rw [colNames_addEmptyCol]; exact List.mem_append_left _ hcon)
            · rw [h3, nrows_addEmptyCol]

theorem appendStep_eq (acc : List Bool × List ExpenseRecord) (r : ExpenseRecord) :
    appendStep acc r = (acc.1 ++ [true], acc.2 ++ [r]) := rfl

theorem foldl_appendStep (recs : List ExpenseRecord) (flags : List Bool)
    (start : List ExpenseRecord) :
    recs.foldl appendStep (flags, start)
      = (flags ++ List.replicate recs.length true, start ++ recs) := by
  induction recs generalizing flags start with
  | nil => simp
  | cons r rs ih =>
      simp only [List.foldl_cons, appendStep_eq]
      rw [ih]
      simp [List.replicate_succ]

theorem rowsOf_maps (l : List ExpenseRecord) :
    rowsOf (l.map fun r => Cell.str r.date) (l.map fun r => Cell.str r.item)
      (l.map fun r => Cell.num r.amount) (l.map fun r => Cell.str r.category)
      (l.map fun r => Cell.str r.notes) = l := by
  induction l with
  | nil => rfl
  | cons r rs ih => simp [rowsOf, cellStr, cellNum, ih]

theorem readRecords_ledgerDF (l : List ExpenseRecord) :
    readRecords (ledgerDF l) = l := by
  have h1 : (ledgerDF l).column "Date" = l.map (fun r => Cell.str r.date) := rfl
  have h2 : (ledgerDF l).column "Item" = l.map (fun r => Cell.str r.item) := rfl
  have h3 : (ledgerDF l).column "Amount" = l.map (fun r => Cell.num r.amount) := rfl
  have h4 : (ledgerDF l).column "Category" = l.map (fun r => Cell.str r.category) := rfl
  have h5 : (ledgerDF l).column "Notes" = l.map (fun r => Cell.str r.notes) := rfl
  unfold readRecords
  rw [h1, h2, h3, h4, h5]
  exact rowsOf_maps l

theorem get_data_ledgerDF (l : List ExpenseRecord) :
    get_data (some (ledgerDF l)) = ledgerDF l := by
  unfold get_data
  exact foldl_ensureCol_id _ _ (by intro c hc; fin_cases hc <;> simp [ledgerDF, DF.colNames])

/-- C6: whenever a pending clarification is present at the start of a turn, the
Classifier is never invoked during that turn: the turn output does not depend
on the Classifier oracle at all, and the message is routed through the
clarification-resolution path only. -/
theorem pending_intercepts_turn (prompt : String) (p : AIResult)
    (ledger : List ExpenseRecord) (ro wo : Bool)
    (cp1 cp2 : Option AIResult) (raw1 raw2 : String) :
    processTurn prompt (some p) ledger ro wo cp1 raw1
        = processTurn prompt (some p) ledger ro wo cp2 raw2
      ∧ (processTurn prompt (some p) ledger ro wo cp1 raw1).classifierCalled = false
      ∧ processTurn prompt (some p) ledger ro wo cp1 raw1
        = resolvePending prompt p ledger ro wo := by
  refine ⟨rfl, ?_, rfl⟩
  show (resolvePending prompt p ledger ro wo).classifierCalled = false
  unfold resolvePending
  rcases p with ⟨i, d, it, a, c, n, rt⟩
  cases d <;> cases it <;> cases a <;> cases n <;> cases wo <;>
    simp [save_expense]

/-- C7: a Query verdict leaves the ledger and the pending-clarification slot
unchanged, performs no sheet append, raises nothing, and surfaces the answer
text of the Classifier verbatim as the assistant response. -/
theorem query_verdict_turn (prompt : String) (ledger : List ExpenseRecord)
    (ro wo : Bool) (r : AIResult) (raw : String)
    (hq : r.intent = some "QUERY") :
    (processTurn prompt none ledger ro wo (some r) raw).ledger = ledger
      ∧ (processTurn prompt none ledger ro wo (some r) raw).appends = []
      ∧ (processTurn prompt none ledger ro wo (some r) raw).pending = none
      ∧ (processTurn prompt none ledger ro wo (some r) raw).response = r.response_text
      ∧ (processTurn prompt none ledger ro wo (some r) raw).raised = none := by
  simp [processTurn, handleVerdict, analyze_intent_and_process, hq]

/-- C7 witness: the Query theorem applied to a concrete query turn. -/
theorem query_verdict_turn_witness :
    (processTurn "q" none [] true true (some sampleQuery) "").ledger = []
      ∧ (processTurn "q" none [] true true (some sampleQuery) "").appends = []
      ∧ (processTurn "q" none [] true true (some sampleQuery) "").pending = none
      ∧ (processTurn "q" none [] true true (some sampleQuery) "").response
          = sampleQuery.response_text
      ∧ (processTurn "q" none [] true true (some sampleQuery) "").raised = none :=
  query_verdict_turn "q" [] true true sampleQuery "" rfl

/-- C4: while awaiting a category, the record handed to the sheet append is the
held partial record with its category set to exactly the incoming message
stripped of surrounding whitespace and title-cased, the other four fields taken
unchanged from the held record; the input "Food" yields category exactly
"Food". -/
theorem clarification_category_record (prompt : String) (p : AIResult)
    (ledger : List ExpenseRecord) (ro wo : Bool) (cp : Option AIResult) (raw : String)
    (d it no : String) (am : Rat)
    (hd : p.date = some d) (hi : p.item = some it)
    (ha : p.amount = some am) (hn : p.notes = some no) :
    (processTurn prompt (some p) ledger ro wo cp raw).appends
        = [⟨d, it, am, pyTitle (pyStrip prompt), no⟩]
      ∧ pyTitle (pyStrip "Food") = "Food" := by
  constructor
  · cases wo <;> simp [processTurn, resolvePending, hd, hi, ha, hn, save_expense]
  · rfl

/-- C4 witness: the clarification-category theorem applied to the concrete
input "Food" against a concrete held record. -/
theorem clarification_category_record_witness :
    (processTurn "Food" (some sampleUncertain) [] true true none "").appends
        = [⟨"2025-01-15", "Rahul", 500, pyTitle (pyStrip "Food"), ""⟩]
      ∧ pyTitle (pyStrip "Food") = "Food" :=
  clarification_category_record "Food" sampleUncertain [] true true none ""
    "2025-01-15" "Rahul" "" 500 rfl rfl rfl rfl

/-- C1 counterexample: with a pending clarification held and the sheet write
failing, the turn leaves the pending slot occupied — the machine does not
return to IDLE regardless of store outcome, contradicting the claim. -/
theorem save_failure_keeps_pending :
    (processTurn "Food" (some sampleUncertain) [] true false none "").pending
        = some sampleUncertain
      ∧ some sampleUncertain ≠ (none : Option AIResult) :=
  ⟨rfl, by simp⟩

/-- C1 (amended): while awaiting a category with the held record complete, the
turn clears the pending slot exactly when the sheet write succeeds; on a failed
write the pending clarification is retained and the state stays
AWAITING_CATEGORY. -/
theorem awaiting_category_next_state (prompt : String) (p : AIResult)
    (ledger : List ExpenseRecord) (ro wo : Bool) (cp : Option AIResult) (raw : String)
    (d it no : String) (am : Rat)
    (hd : p.date = some d) (hi : p.item = some it)
    (ha : p.amount = some am) (hn : p.notes = some no) :
    (processTurn prompt (some p) ledger ro wo cp raw).pending
      = (if wo then none else some p) := by
  cases wo <;> simp [processTurn, resolvePending, hd, hi, ha, hn, save_expense]

/-- C1 witness: the amended next-state theorem applied at a concrete turn with
a succeeding write. -/
theorem awaiting_category_next_state_witness :
    (processTurn "Food" (some sampleUncertain) [] true true none "").pending
      = (if true then none else some sampleUncertain) :=
  awaiting_category_next_state "Food" sampleUncertain [] true true none ""
    "2025-01-15" "Rahul" "" 500 rfl rfl rfl rfl

/-- C2: an Expense verdict carrying the sentinel category UNCERTAIN performs no
sheet append, leaves the sheet unchanged, moves the machine to
AWAITING_CATEGORY holding exactly the extracted record, raises nothing, and
emits the clarifying question naming the extracted item and amount. -/
theorem uncertain_expense_turn (prompt : String) (ledger : List ExpenseRecord)
    (ro wo : Bool) (r : AIResult) (raw : String) (d it no : String) (am : Rat)
    (hint : r.intent = some "LOG_EXPENSE") (hcat : r.category = some "UNCERTAIN")
    (hd : r.date = some d) (hi : r.item = some it)
    (ha : r.amount = some am) (hn : r.notes = some no) :
    (processTurn prompt none ledger ro wo (some r) raw).appends = []
      ∧ (processTurn prompt none ledger ro wo (some r) raw).ledger = ledger
      ∧ (processTurn prompt none ledger ro wo (some r) raw).pending = some r
      ∧ (∀ q, (processTurn prompt none ledger ro wo (some r) raw).pending = some q →
          q.date = some d ∧ q.item = some it ∧ q.amount = some am ∧ q.notes = some no)
      ∧ (processTurn prompt none ledger ro wo (some r) raw).raised = none
      ∧ (processTurn prompt none ledger ro wo (some r) raw).response
          = some ("I noticed you spent **₹" ++ toString am ++ "** on **" ++ it
              ++ "**, but I\x27m not sure about the category. Which one is it?") := by
  have hq : ¬ (r.intent = some "QUERY") := by rw [hint]; decide
  simp [processTurn, handleVerdict, analyze_intent_and_process, hq, hint, hcat,
    hd, hi, ha, hn]

/-- C2 witness: the uncertain-category theorem applied at a concrete turn. -/
theorem uncertain_expense_turn_witness :
    (processTurn "Paid 500 to Rahul" none [] true true (some sampleUncertain) "").appends = []
      ∧ (processTurn "Paid 500 to Rahul" none [] true true (some sampleUncertain) "").ledger = []
      ∧ (processTurn "Paid 500 to Rahul" none [] true true (some sampleUncertain) "").pending
          = some sampleUncertain
      ∧ (∀ q, (processTurn "Paid 500 to Rahul" none [] true true (some sampleUncertain) "").pending
              = some q →
          q.date = some "2025-01-15" ∧ q.item = some "Rahul"
            ∧ q.amount = some 500 ∧ q.notes = some "")
      ∧ (processTurn "Paid 500 to Rahul" none [] true true (some sampleUncertain) "").raised = none
      ∧ (processTurn "Paid 500 to Rahul" none [] true true (some sampleUncertain) "").response
          = some ("I noticed you spent **₹" ++ toString (500 : Rat) ++ "** on **" ++ "Rahul"
              ++ "**, but I\x27m not sure about the category. Which one is it?") :=
  uncertain_expense_turn "Paid 500 to Rahul" [] true true sampleUncertain ""
    "2025-01-15" "Rahul" "" 500 rfl rfl rfl rfl rfl rfl

/-- C3: an Expense verdict with a resolvable category, received while IDLE,
hands exactly one record — the extracted one — to the sheet append, leaves the
pending slot empty, raises nothing, and when the sheet read and write succeed
the sheet gains exactly that record. -/
theorem resolvable_expense_turn (prompt : String) (ledger : List ExpenseRecord)
    (ro wo : Bool) (r : AIResult) (raw : String)
    (d it c no : String) (am : Rat)
    (hint : r.intent = some "LOG_EXPENSE") (hcat : r.category = some c)
    (hne : c ≠ "UNCERTAIN")
    (hd : r.date = some d) (hi : r.item = some it)
    (ha : r.amount = some am) (hn : r.notes = some no) :
    (processTurn prompt none ledger ro wo (some r) raw).appends = [⟨d, it, am, c, no⟩]
      ∧ (processTurn prompt none ledger ro wo (some r) raw).pending = none
      ∧ (processTurn prompt none ledger ro wo (some r) raw).raised = none
      ∧ (ro = true → wo = true →
          (processTurn prompt none ledger ro wo (some r) raw).ledger
            = ledger ++ [⟨d, it, am, c, no⟩]) := by
  have hq : ¬ (r.intent = some "QUERY") := by rw [hint]; decide
  have hc : ¬ (r.category = some "UNCERTAIN") := by rw [hcat]; simp [hne]
  cases ro <;> cases wo <;>
    simp [processTurn, handleVerdict, analyze_intent_and_process, hq, hint, hc,
      hd, hi, ha, hcat, hn, hne, save_expense]

/-- C3 witness: the resolvable-category theorem applied at a concrete turn. -/
theorem resolvable_expense_turn_witness :
    (processTurn "Spent 200 on auto" none [] true true (some sampleExpense) "").appends
        = [⟨"2025-01-15", "auto", 200, "Travel", ""⟩]
      ∧ (processTurn "Spent 200 on auto" none [] true true (some sampleExpense) "").pending = none
      ∧ (processTurn "Spent 200 on auto" none [] true true (some sampleExpense) "").raised = none
      ∧ (true = true → true = true →
          (processTurn "Spent 200 on auto" none [] true true (some sampleExpense) "").ledger
            = [] ++ [⟨"2025-01-15", "auto", 200, "Travel", ""⟩]) :=
  resolvable_expense_turn "Spent 200 on auto" [] true true sampleExpense ""
    "2025-01-15" "auto" "Travel" "" 200 rfl rfl (by decide) rfl rfl rfl rfl

/-- C5 counterexample: a decoded Expense verdict whose date key is missing
makes the turn raise an uncaught KeyError and emit no message at all, instead
of collapsing to the generic did-not-understand message, so the claim fails as
stated. -/
theorem missing_field_raises :
    (processTurn "x" none [] true true (some missingDateExpense) "").raised
        = some "KeyError"
      ∧ (processTurn "x" none [] true true (some missingDateExpense) "").response = none :=
  ⟨rfl, rfl⟩

/-- C5 (amended): a Classifier reply that fails to decode as structured output
collapses to the generic did-not-understand message with no append, no state
change and no exception; a decoded Expense verdict missing a required field on
the immediate-save path is not collapsed — the turn raises an uncaught
KeyError (still with no append and no state change). -/
theorem unparseable_verdict_turn :
    (∀ (prompt : String) (ledger : List ExpenseRecord) (ro wo : Bool) (raw : String),
        processTurn prompt none ledger ro wo none raw
          = ⟨none, ledger, [],
             some "I\x27m sorry, I didn\x27t understand that. Please try again.",
             none, true⟩)
      ∧ (∀ (prompt : String) (ledger : List ExpenseRecord) (ro wo : Bool)
          (raw : String) (r : AIResult),
          r.intent = some "LOG_EXPENSE" → r.category ≠ some "UNCERTAIN" →
          (r.date = none ∨ r.item = none ∨ r.amount = none
            ∨ r.category = none ∨ r.notes = none) →
          processTurn prompt none ledger ro wo (some r) raw
            = ⟨none, ledger, [], none, some "KeyError", true⟩) := by
  constructor
  · intro prompt ledger ro wo raw
    rfl
  · intro prompt ledger ro wo raw r hint hcat hmiss
    rcases r with ⟨i, d, it, a, c, n, rt⟩
    cases d <;> cases it <;> cases a <;> cases c <;> cases n <;>
      simp_all [processTurn, handleVerdict, analyze_intent_and_process]

/-- C5 witness: the amended theorem applied at a concrete missing-date turn. -/
theorem unparseable_verdict_turn_witness :
    processTurn "x" none [] true true (some missingDateExpense) ""
      = ⟨none, [], [], none, some "KeyError", true⟩ :=
  unparseable_verdict_turn.2 "x" [] true true "" missingDateExpense
    rfl (by decide) (Or.inl rfl)

/-- Every record a turn hands to the sheet append in the clarification path is
the held partial record completed with the title-cased message category. -/
theorem appends_resolvePending (prompt : String) (p : AIResult)
    (ledger : List ExpenseRecord) (ro wo : Bool) :
    (resolvePending prompt p ledger ro wo).appends = []
      ∨ ∃ d it am no, p.date = some d ∧ p.item = some it ∧ p.amount = some am
          ∧ p.notes = some no
          ∧ (resolvePending prompt p ledger ro wo).appends
              = [⟨d, it, am, pyTitle (pyStrip prompt), no⟩] := by
  rcases p with ⟨i, d, it, a, c, n, rt⟩
  cases d <;> cases it <;> cases a <;> cases n <;>
    first
      | (left; rfl)
      | (right; exact ⟨_, _, _, _, rfl, rfl, rfl, rfl, by
          cases wo <;> simp [resolvePending, save_expense]⟩)

/-- Every record a turn hands to the sheet append in the verdict-dispatch path
is exactly the extracted record of a fully-populated Expense verdict. -/
theorem appends_handleVerdict (r : AIResult) (ledger : List ExpenseRecord) (ro wo : Bool) :
    (handleVerdict r ledger ro wo).appends = []
      ∨ ∃ d it am c no, r.date = some d ∧ r.item = some it ∧ r.amount = some am
          ∧ r.category = some c ∧ r.notes = some no
          ∧ (handleVerdict r ledger ro wo).appends = [⟨d, it, am, c, no⟩] := by
  rcases r with ⟨i, d, it, a, c, n, rt⟩
  dsimp only [handleVerdict]
  split
  · left; rfl
  · split
    · split
      · split
        · left; rfl
        · left; rfl
      · split
        · right; exact ⟨_, _, _, _, _, rfl, rfl, rfl, rfl, rfl, rfl⟩
        · left; rfl
    · left; rfl

/-- C8 counterexample: a negative extracted amount is persisted unchanged —
nothing in the state machine enforces non-negativity of persisted records. -/
theorem negative_amount_persisted :
    ∃ rec, rec ∈ (processTurn "x" none [] true true (some negativeExpense) "").ledger
      ∧ rec.amount < 0 :=
  ⟨⟨"2025-01-15", "refund", -5, "Food", ""⟩, by decide, by norm_num⟩

/-- C8 (amended): every record a turn hands to the sheet append carries its
amount unchanged from the Classifier verdict or from the held pending record,
so persisted amounts are non-negative whenever those source amounts are — the
code itself performs no sign check. -/
theorem persisted_amount_from_source (prompt : String) (pending : Option AIResult)
    (ledger : List ExpenseRecord) (ro wo : Bool) (cp : Option AIResult) (raw : String)
    (hp : ∀ p, pending = some p → ∀ q : Rat, p.amount = some q → 0 ≤ q)
    (hc : ∀ r, cp = some r → ∀ q : Rat, r.amount = some q → 0 ≤ q) :
    ∀ rec ∈ (processTurn prompt pending ledger ro wo cp raw).appends,
      0 ≤ rec.amount := by
  intro rec hrec
  cases pending with
  | some p =>
      have he : processTurn prompt (some p) ledger ro wo cp raw
          = resolvePending prompt p ledger ro wo := rfl
      rcases appends_resolvePending prompt p ledger ro wo with h | ⟨d, it, am, no, _, _, ha, _, h⟩
      · rw [he, h] at hrec; cases hrec
      · rw [he, h] at hrec
        have hr := List.mem_singleton.mp hrec
        subst hr
        exact hp p rfl am ha
  | none =>
      cases cp with
      | none =>
          have he : (processTurn prompt none ledger ro wo none raw).appends = [] := rfl
          rw [he] at hrec; cases hrec
      | some r =>
          have he : processTurn prompt none ledger ro wo (some r) raw
              = handleVerdict r ledger ro wo := rfl
          rcases appends_handleVerdict r ledger ro wo with h | ⟨d, it, am, c, no, _, _, ha, _, _, h⟩
          · rw [he, h] at hrec; cases hrec
          · rw [he, h] at hrec
            have hr := List.mem_singleton.mp hrec
            subst hr
            exact hc r rfl am ha

/-- C8 witness: the amended amount-provenance theorem applied at a concrete
turn whose Classifier amount is non-negative. -/
theorem persisted_amount_from_source_witness :
    (0 : Rat) ≤ (ExpenseRecord.mk "2025-01-15" "auto" 200 "Travel" "").amount :=
  persisted_amount_from_source "Spent 200 on auto" none [] true true (some sampleExpense) ""
    (by intro p hp; cases hp)
    (by
      intro r hr q hq
      cases hr
      simp only [sampleExpense] at hq
      rw [Option.some_inj] at hq
      rw [← hq]
      norm_num)
    ⟨"2025-01-15", "auto", 200, "Travel", ""⟩ (by decide)

/-- C9: append is read-all, add-one, write-all — for every starting ledger and
every record sequence, performing the appends with the read and write
succeeding reports success for each one and leaves the sheet holding the
starting ledger followed by the new records in append order; reading those rows
back through the sheet serialization returns every record with its fields
intact. -/
theorem append_read_roundtrip (start recs : List ExpenseRecord) :
    appendAll start recs = (List.replicate recs.length true, start ++ recs)
      ∧ readRecords (get_data (some (ledgerDF (start ++ recs)))) = start ++ recs := by
  constructor
  · simpa using foldl_appendStep recs [] start
  · rw [get_data_ledgerDF]; exact readRecords_ledgerDF _

/-- C10: the ledger read never propagates an exception — a read failure yields
the empty ledger instead — and every returned frame carries all five required
columns, any column missing from the backend having been appended as an
all-missing column of the frame length. -/
theorem get_data_defensive :
    (∀ backend, ∀ c ∈ required_cols, c ∈ (get_data backend).colNames)
      ∧ get_data none = ⟨required_cols.map (fun n => (n, []))⟩
      ∧ (∀ df : DF, ∃ extra, (get_data (some df)).cols = df.cols ++ extra
          ∧ ∀ p ∈ extra, p.1 ∈ required_cols ∧ p.1 ∉ df.colNames
              ∧ p.2 = List.replicate df.nrows Cell.na) := by
  refine ⟨?_, rfl, ?_⟩
  · intro backend c hc
    cases backend with
    | none => exact hc
    | some df => exact foldl_ensureCol_mem _ _ _ hc
  · intro df
    exact foldl_ensureCol_extra required_cols df

/-- C10 witness: the defensive-read theorem applied at the failed-read backend
and a concrete required column. -/
theorem get_data_defensive_witness :
    "Date" ∈ (get_data none).colNames :=
  get_data_defensive.1 none "Date" (by decide)

end ExpenseManager
